import Mathlib

/-!
Shallow embedding of the trace-info extraction and filter-matching engine of
`typhonjs-color-logger` (files `src/ColorLogger.js` and `src/TraceFilter.js`).

JavaScript `Map<string, TraceFilter>` values are embedded as association lists
in insertion order.  The compiled regular expression of a `TraceFilter` is
embedded as its match-at-position predicate `matchAt : String → Nat → Bool`
(whether the compiled pattern matches starting at a given character index);
`RegExp.prototype.test` scans start positions `0 .. value.length` and succeeds
when the pattern matches at one of them, which is `regexpTest` below.
The specific call-site pattern of `getTraceInfo` is embedded concretely as
`matchCallSite`.
-/

/-- Embeds the JavaScript values a filter-config field may hold, as far as the
`typeof` checks of `ColorLogger` distinguish them. -/
inductive JSVal where
  | vStr (s : String)
  | vBool (b : Bool)
  | vNum (n : Int)
  | vUndefined
  | vNull
deriving DecidableEq, Repr

/-- A trace filter (`src/TraceFilter.js`): name, the raw filter string, the
compiled pattern embedded as its match-at-position predicate, and the mutable
enabled flag.  The constructor sets `enabled` to `true`. -/
structure TraceFilter where
  name : String
  filterString : String
  matchAt : String → Nat → Bool
  enabled : Bool

/-- Embeds `RegExp.prototype.test`: the engine tries every start position of
`v` (including the end of the string) and reports whether the compiled
pattern, given by its match-at-position predicate `m`, matches at one. -/
def regexpTest (m : String → Nat → Bool) (v : String) : Bool :=
  (List.range (v.length + 1)).any (fun i => m v i)

/-- Embeds `TraceFilter.test` (`src/TraceFilter.js` line 90):
`return this._enabled && this._filter.test(value);`. -/
def TraceFilter.test (f : TraceFilter) (value : String) : Bool :=
  f.enabled && regexpTest f.matchAt value

/-- A JavaScript `Map<string, TraceFilter>` as an association list in insertion
order. -/
abbrev FilterMap : Type := List (String × TraceFilter)

/-- Embeds `Map.prototype.has`. -/
def mapHas (m : FilterMap) (k : String) : Bool :=
  m.any (fun p => p.1 == k)

/-- Embeds `Map.prototype.get`. -/
def mapGet : FilterMap → String → Option TraceFilter
  | [], _ => none
  | p :: rest, k => if p.1 == k then some p.2 else mapGet rest k

/-- Embeds `Map.prototype.set`: replaces in place when the key exists,
otherwise appends, preserving insertion order. -/
def mapSet (m : FilterMap) (k : String) (v : TraceFilter) : FilterMap :=
  if mapHas m k then m.map (fun p => if p.1 == k then (k, v) else p)
  else m ++ [(k, v)]

/-- Embeds `Map.prototype.values` (insertion order). -/
def mapValues (m : FilterMap) : List TraceFilter :=
  m.map Prod.snd

/-- Embeds the `ColorLoggerOptions` fields of `this._options`
(`src/ColorLogger.js` lines 77-84). -/
structure ColorLoggerOptions where
  autoPluginFilters : Bool
  consoleEnabled : Bool
  filtersEnabled : Bool
  showDate : Bool
  showInfo : Bool

/-- The mutable state of a `ColorLogger` the filtering engine touches: the
options and the two filter maps (`src/ColorLogger.js` lines 77-104). -/
structure LoggerState where
  options : ColorLoggerOptions
  exclusiveTraceFilters : FilterMap
  inclusiveTraceFilters : FilterMap

/-- Embeds `ColorLogger._applyFilters` (`src/ColorLogger.js` lines 179-205).
The two `for (... of ... values())` loops with `break` are embedded as
`List.any`, which iterates in insertion order and short-circuits on the first
`true`. -/
def applyFilters (st : LoggerState) (value : String) : Bool :=
  if st.exclusiveTraceFilters.isEmpty && st.inclusiveTraceFilters.isEmpty then false
  else
    let filtered := (mapValues st.exclusiveTraceFilters).any (fun f => f.test value)
    if filtered then filtered
    else
      let filtered := !st.inclusiveTraceFilters.isEmpty
      if (mapValues st.inclusiveTraceFilters).any (fun f => f.test value) then false
      else filtered

/-- Embeds the per-line suppression check
`this._options.filtersEnabled && this._applyFilters(lines[cntr])`
(`src/ColorLogger.js` lines 371 and 388). -/
def lineFiltered (st : LoggerState) (line : String) : Bool :=
  st.options.filtersEnabled && applyFilters st line

-- A concrete logger state with the default options and no filters, used to
-- instantiate universally quantified theorems on concrete inputs.
def emptyState : LoggerState :=
  ⟨⟨false, true, true, false, true⟩, [], []⟩

example : applyFilters emptyState "anything" = false := by decide

/-- The filter-config object fields `addFilter` reads. -/
structure FilterConfig where
  type : JSVal
  name : JSVal
  filterString : JSVal
  enabled : JSVal
deriving DecidableEq, Repr

/-- The argument of `addFilter`: either a value whose `typeof` is not
`object`, or an object read through its `type`, `name`, `filterString` and
`enabled` properties. -/
inductive ConfigArg where
  | nonObject
  | config (c : FilterConfig)

/-- A log emitted through the logger itself during `addFilter`
(`this.error(...)` or `this.warn(...)`). -/
inductive LogEvent where
  | errorEvent
  | warnEvent
deriving DecidableEq, Repr

/-- The value produced by a call to `addFilter`: either a thrown `TypeError`
or a normal boolean return together with the logs emitted on the way. -/
inductive AddFilterRes where
  | thrown (msg : String)
  | returned (value : Bool) (logs : List LogEvent)
deriving DecidableEq, Repr

/-- Embeds `ColorLogger.addFilter` (`src/ColorLogger.js` lines 119-148),
paired with the state after the call.  `compile` embeds `new RegExp(s)`,
producing the match-at-position predicate of the compiled pattern. -/
def addFilter (compile : String → String → Nat → Bool) (st : LoggerState)
    (arg : ConfigArg) : AddFilterRes × LoggerState :=
  match arg with
  | .nonObject => (.thrown "filterConfig is not an object.", st)
  | .config c =>
    match c.name, c.filterString with
    | .vStr nm, .vStr fs =>
      if c.type != JSVal.vStr "exclusive" && c.type != JSVal.vStr "inclusive" then
        (.returned false [.errorEvent], st)
      else
        let isExclusive := c.type == JSVal.vStr "exclusive"
        let filterMap := if isExclusive then st.exclusiveTraceFilters
          else st.inclusiveTraceFilters
        if mapHas filterMap nm then (.returned false [.warnEvent], st)
        else
          let filter0 : TraceFilter := ⟨nm, fs, compile fs, true⟩
          let filter := match c.enabled with
            | .vBool b => { filter0 with enabled := b }
            | _ => filter0
          if isExclusive then
            (.returned true [], { st with exclusiveTraceFilters := mapSet filterMap nm filter })
          else
            (.returned true [], { st with inclusiveTraceFilters := mapSet filterMap nm filter })
    | .vStr _, _ => (.thrown "config.filterString is not a string.", st)
    | _, _ => (.thrown "config.name is not a string.", st)

/-- The effective enabled state a successful `addFilter` stores: the filter is
constructed with `enabled = true` and overridden only when `config.enabled` is
a boolean (`src/ColorLogger.js` line 143). -/
def effectiveEnabled (enabledArg : JSVal) : Bool :=
  match enabledArg with
  | .vBool b => b
  | _ => true

/-- The snapshot object `{enabled, filterString, name, type}` returned by the
filter query methods. -/
structure TraceFilterData where
  enabled : Bool
  filterString : String
  name : String
  type : String
deriving DecidableEq, Repr

/-- Embeds `ColorLogger.getFilterData` (`src/ColorLogger.js` lines 267-289);
`Except.error` embeds the thrown `Error` on an invalid `type`. -/
def getFilterData (st : LoggerState) (type name : String) :
    Except String (Option TraceFilterData) :=
  if type != "exclusive" && type != "inclusive" then
    .error "type must be exclusive or inclusive"
  else
    let filterMap := if type == "exclusive" then st.exclusiveTraceFilters
      else st.inclusiveTraceFilters
    match mapGet filterMap name with
    | some filter => .ok (some ⟨filter.enabled, filter.filterString, filter.name, type⟩)
    | none => .ok none

/-- Embeds `ColorLogger.getAllFilterData` (`src/ColorLogger.js` lines
215-256); `Except.error` embeds the thrown `TypeError` when the argument is
neither a boolean nor undefined.  The `allFilters || filter.enabled ===
enabled` push condition is kept as the strict comparison of the JavaScript
values. -/
def getAllFilterData (st : LoggerState) (enabled : JSVal) :
    Except String (List TraceFilterData) :=
  if (match enabled with | .vBool _ => false | .vUndefined => false | _ => true) then
    .error "enabled is not a boolean or undefined."
  else
    let allFilters := enabled == JSVal.vUndefined
    .ok ((mapValues st.exclusiveTraceFilters).filterMap (fun f =>
        if allFilters || JSVal.vBool f.enabled == enabled then
          some ⟨f.enabled, f.filterString, f.name, "exclusive"⟩
        else none) ++
      (mapValues st.inclusiveTraceFilters).filterMap (fun f =>
        if allFilters || JSVal.vBool f.enabled == enabled then
          some ⟨f.enabled, f.filterString, f.name, "inclusive"⟩
        else none))


/-- Embeds the character class `[\w\d\-_.]` of the call-site pattern of
`getTraceInfo` (`src/ColorLogger.js` line 373): ASCII letters, digits,
underscore, hyphen and dot. -/
def isFileChar (c : Char) : Bool :=
  c.isAlphanum || c == '_' || c == '-' || c == '.'

/-- Attempts the pattern `[\w\d\-_.]*:\d+:\d+` at the start of the character
list `cs` and returns the matched characters.  Greedy repetition with
backtracking collapses to maximal runs here: the character ending a maximal
`[\w\d\-_.]` run or digit run is never `:`, so no shorter run can satisfy the
following `:` either. -/
def matchCallSiteAt (cs : List Char) : Option (List Char) :=
  match cs.dropWhile isFileChar with
  | ':' :: rest1 =>
    if (rest1.takeWhile Char.isDigit).isEmpty then none
    else
      match rest1.dropWhile Char.isDigit with
      | ':' :: rest2 =>
        if (rest2.takeWhile Char.isDigit).isEmpty then none
        else some (cs.takeWhile isFileChar ++ ':' ::
          (rest1.takeWhile Char.isDigit ++ ':' :: rest2.takeWhile Char.isDigit))
      | _ => none
  | _ => none

/-- Embeds the position scan of `String.prototype.match` for the unanchored
pattern: attempts the pattern at every start position from left to right and
returns the first (leftmost) match. -/
def scanCallSite : List Char → Option (List Char)
  | [] => none
  | c :: cs =>
    match matchCallSiteAt (c :: cs) with
    | some m => some m
    | none => scanCallSite cs

/-- Embeds `lines[cntr].match(/([\w\d\-_.]*:\d+:\d+)/)` followed by taking
`matched[1]` (`src/ColorLogger.js` lines 373-377); the single capture group
spans the whole pattern, so the returned token is the whole match. -/
def matchCallSite (s : String) : Option String :=
  (scanCallSite s.data).map (fun cs => ⟨cs⟩)

/-- Embeds `String.prototype.split` with separator `'\n'`
(`src/ColorLogger.js` line 365). -/
def splitLinesAux : List Char → List Char → List String
  | [], acc => [⟨acc.reverse⟩]
  | c :: cs, acc =>
    if c == '\n' then (⟨acc.reverse⟩ : String) :: splitLinesAux cs []
    else splitLinesAux cs (c :: acc)

/-- Splits a stack text into its lines exactly as `stack.split('\n')` does. -/
def splitLines (s : String) : List String :=
  splitLinesAux s.data []

/-- Embeds the first loop of `getTraceInfo` (`src/ColorLogger.js` lines
367-380): starting from index `cntr`, skip lines that are filtered, stop at
the first remaining line carrying a call-site token (leaving `cntr` at that
line), and otherwise run `cntr` past the end.  Returns the matched token, if
any, together with the final value of `cntr`. -/
def findCallSite (st : LoggerState) : List String → Nat → Option String × Nat
  | [], cntr => (none, cntr)
  | l :: rest, cntr =>
    if lineFiltered st l then findCallSite st rest (cntr + 1)
    else
      match matchCallSite l with
      | some tok => (some tok, cntr)
      | none => findCallSite st rest (cntr + 1)

/-- The value `{info, trace}` returned by `getTraceInfo`. -/
structure TraceResult where
  info : String
  trace : List String
deriving DecidableEq, Repr

/-- Embeds `ColorLogger.getTraceInfo` (`src/ColorLogger.js` lines 349-396).
The stack property of the supplied or synthesized error is embedded as
`Option String`, `none` standing for a non-string `stack`.  The second loop
(lines 384-392) resumes from the final value of `cntr` of the first loop and
pushes every non-filtered remaining line, which is the filtered drop below. -/
def getTraceInfo (st : LoggerState) (stack : Option String) (isFullTrace : Bool) :
    TraceResult :=
  match stack with
  | none => ⟨"no stack trace", []⟩
  | some s =>
    let lines := splitLines s
    let r := findCallSite st lines 0
    let info := match r.1 with
      | some tok => tok
      | none => "no stack trace"
    let trace := if isFullTrace then
        (lines.drop r.2).filter (fun l => !lineFiltered st l)
      else []
    ⟨info, trace⟩

example : splitLines "a\nb" = ["a", "b"] := by decide
example : matchCallSite "at foo (a.js:1:2)" = some "a.js:1:2" := by decide
example : matchCallSite ":12:34" = some ":12:34" := by decide
example : matchCallSite "hello x" = none := by decide
example : getTraceInfo emptyState (some "a.js:1:2\nplain") true =
    ⟨"a.js:1:2", ["a.js:1:2", "plain"]⟩ := by decide
example : getTraceInfo emptyState (some "hello") true = ⟨"no stack trace", []⟩ := by decide

-- Concrete match-at-position predicates and filters used to instantiate the
-- universally quantified theorems below on concrete inputs.
def xMatch (v : String) (i : Nat) : Bool :=
  (v.data.drop i).take 1 == ['x']

def yMatch (v : String) (i : Nat) : Bool :=
  (v.data.drop i).take 1 == ['y']

def xFilter : TraceFilter := ⟨"fx", "x", xMatch, true⟩

def xFilterDisabled : TraceFilter := ⟨"fx", "x", xMatch, false⟩

def yFilter : TraceFilter := ⟨"fy", "y", yMatch, true⟩

def oneExclusiveState : LoggerState :=
  ⟨⟨false, true, true, false, true⟩, [("fx", xFilter)], [("fy", yFilter)]⟩

def oneInclusiveState : LoggerState :=
  ⟨⟨false, true, true, false, true⟩, [], [("fy", yFilter)]⟩

/-- C1: whenever some enabled exclusive filter's compiled pattern matches the
line, `_applyFilters` reports the line as suppressed, for every registry
state — in particular for every inclusive-filter mapping and regardless of
whether any inclusive filter matches. -/
theorem c1_exclusive_match_always_suppressed (st : LoggerState) (line : String)
    (f : TraceFilter) (hmem : f ∈ mapValues st.exclusiveTraceFilters)
    (hen : f.enabled = true) (hmatch : regexpTest f.matchAt line = true) :
    applyFilters st line = true := by
  have hne : st.exclusiveTraceFilters.isEmpty = false := by
    cases h : st.exclusiveTraceFilters with
    | nil => rw [h] at hmem; simp [mapValues] at hmem
    | cons a t => rfl
  have hany : (mapValues st.exclusiveTraceFilters).any (fun g => g.test line) = true := by
    rw [List.any_eq_true]
    exact ⟨f, hmem, by simp [TraceFilter.test, hen, hmatch]⟩
  simp [applyFilters, hne, hany]

/-- Witness for C1 on a concrete registry: an enabled exclusive filter
matching `"ax"` suppresses the line even though an inclusive filter is
registered that does not match it. -/
theorem c1_witness : applyFilters oneExclusiveState "ax" = true :=
  c1_exclusive_match_always_suppressed oneExclusiveState "ax" xFilter
    (List.mem_singleton.mpr rfl) rfl (by decide)

/-- C2: when no enabled exclusive filter matches the line, `_applyFilters`
returns `false` if no inclusive filter is registered (including the fast path
with both mappings empty), and with at least one inclusive filter registered
it returns `true` exactly when no enabled inclusive filter matches the
line. -/
theorem c2_inclusive_allowlist (st : LoggerState) (line : String)
    (hexc : ∀ f ∈ mapValues st.exclusiveTraceFilters, f.test line = false) :
    (st.inclusiveTraceFilters = [] → applyFilters st line = false) ∧
    (st.inclusiveTraceFilters ≠ [] →
      (applyFilters st line = true ↔
        ∀ f ∈ mapValues st.inclusiveTraceFilters, f.test line = false)) := by
  have hanyexc : (mapValues st.exclusiveTraceFilters).any (fun g => g.test line) = false := by
    rw [List.any_eq_false]
    intro f hf
    simp [hexc f hf]
  constructor
  · intro hinc
    by_cases hexcnil : st.exclusiveTraceFilters = []
    · simp [applyFilters, hexcnil, hinc]
    · have h0 : st.exclusiveTraceFilters.isEmpty = false := by
        cases h : st.exclusiveTraceFilters with
        | nil => exact absurd h hexcnil
        | cons a t => rfl
      simp [applyFilters, h0, hinc, hanyexc]
  · intro hinc
    have h1 : st.inclusiveTraceFilters.isEmpty = false := by
      cases h : st.inclusiveTraceFilters with
      | nil => exact absurd h hinc
      | cons a t => rfl
    have hres : applyFilters st line =
        !(mapValues st.inclusiveTraceFilters).any (fun g => g.test line) := by
      simp only [applyFilters]
      rw [h1, hanyexc]
      cases hia : (mapValues st.inclusiveTraceFilters).any (fun g => g.test line) with
      | true => simp [hia]
      | false => simp [hia]
    rw [hres]
    constructor
    · intro htrue f hf
      have : (mapValues st.inclusiveTraceFilters).any (fun g => g.test line) = false := by
        cases hh : (mapValues st.inclusiveTraceFilters).any (fun g => g.test line) with
        | false => rfl
        | true => rw [hh] at htrue; simp at htrue
      rw [List.any_eq_false] at this
      have := this f hf
      simp at this
      exact this
    · intro hall
      have : (mapValues st.inclusiveTraceFilters).any (fun g => g.test line) = false := by
        rw [List.any_eq_false]
        intro f hf
        simp [hall f hf]
      rw [this]
      rfl

/-- Witness for C2 on a concrete registry: with no enabled exclusive match,
the empty registry lets `"ay"` through, and a registry holding one inclusive
filter suppresses `"ab"` (no inclusive match) while letting `"ay"` (inclusive
match) through. -/
theorem c2_witness :
    applyFilters emptyState "ab" = false ∧
    applyFilters oneInclusiveState "ab" = true ∧
    applyFilters oneInclusiveState "ay" = false := by
  refine ⟨?_, ?_, ?_⟩
  · exact (c2_inclusive_allowlist emptyState "ab" (by intro f hf; simp [mapValues, emptyState] at hf)).1 rfl
  · exact ((c2_inclusive_allowlist oneInclusiveState "ab"
      (by intro f hf; simp [mapValues, oneInclusiveState] at hf)).2 (List.cons_ne_nil _ _)).mpr
      (by intro f hf; rw [List.mem_singleton.mp hf]; decide)
  · cases hh : applyFilters oneInclusiveState "ay" with
    | false => rfl
    | true =>
      have := ((c2_inclusive_allowlist oneInclusiveState "ay"
        (by intro f hf; simp [mapValues, oneInclusiveState] at hf)).2 (List.cons_ne_nil _ _)).mp hh
      have hy := this yFilter (List.mem_singleton.mpr rfl)
      rw [show yFilter.test "ay" = true by decide] at hy
      cases hy

/-- C9: `TraceFilter.test` returns `false` for every input when `enabled` is
false, and when `enabled` is true it returns whether the compiled pattern
matches at some start position of the input — unanchored exists-a-match
semantics, not a full-string match. -/
theorem c9_test_semantics (f : TraceFilter) (v : String) :
    (f.enabled = false → f.test v = false) ∧
    (f.enabled = true →
      (f.test v = true ↔ ∃ i, i < v.length + 1 ∧ f.matchAt v i = true)) := by
  constructor
  · intro h
    simp [TraceFilter.test, h]
  · intro h
    simp [TraceFilter.test, h, regexpTest, List.any_eq_true, List.mem_range]

/-- Witness for C9: the disabled filter rejects the very input its pattern
matches, and the enabled filter accepts `"ax"` through the match at position
1 (not at position 0, so not a full-string anchored match). -/
theorem c9_witness :
    xFilterDisabled.test "x" = false ∧ xFilter.test "ax" = true := by
  constructor
  · exact (c9_test_semantics xFilterDisabled "x").1 rfl
  · exact ((c9_test_semantics xFilter "ax").2 rfl).mpr ⟨1, by decide, by decide⟩

-- A trivial embedding of `new RegExp` used to instantiate theorems about the
-- registry operations, whose statements never consult the compiled pattern.
def constCompile (_pat : String) (_v : String) (_i : Nat) : Bool :=
  false

/-- Looking a key up after appending a fresh entry for it finds that entry. -/
theorem mapGet_append_self (m : FilterMap) (k : String) (v : TraceFilter)
    (h : mapHas m k = false) : mapGet (m ++ [(k, v)]) k = some v := by
  induction m with
  | nil => simp [mapGet]
  | cons p rest ih =>
    have h1 : (p.1 == k) = false := by
      cases hpk : (p.1 == k) with
      | false => rfl
      | true => rw [mapHas, List.any_cons, hpk] at h; simp at h
    have h2 : mapHas rest k = false := by
      rw [mapHas, List.any_cons, h1] at h
      simpa [mapHas] using h
    simp only [List.cons_append, mapGet, h1, Bool.false_eq_true, if_false]
    exact ih h2

/-- Setting an absent key appends the new entry. -/
theorem mapSet_of_not_has (m : FilterMap) (k : String) (v : TraceFilter)
    (h : mapHas m k = false) : mapSet m k v = m ++ [(k, v)] := by
  simp [mapSet, h]

/-- C6: `addFilter` throws a `TypeError` on a non-object config or a
non-string `name` or `filterString`; it logs an error and returns `false` on
any `type` other than `exclusive` or `inclusive`; it logs a warning and
returns `false` on a duplicate name in the target mapping; and in every
failing case the logger state — both filter mappings — is exactly the state
before the call. -/
theorem c6_addFilter_failures (compile : String → String → Nat → Bool)
    (st : LoggerState) :
    (addFilter compile st .nonObject =
      (.thrown "filterConfig is not an object.", st)) ∧
    (∀ c : FilterConfig, (∀ s, c.name ≠ .vStr s) →
      addFilter compile st (.config c) =
        (.thrown "config.name is not a string.", st)) ∧
    (∀ c : FilterConfig, (∃ s, c.name = .vStr s) → (∀ s, c.filterString ≠ .vStr s) →
      addFilter compile st (.config c) =
        (.thrown "config.filterString is not a string.", st)) ∧
    (∀ c : FilterConfig, (∃ s, c.name = .vStr s) → (∃ s, c.filterString = .vStr s) →
      c.type ≠ .vStr "exclusive" → c.type ≠ .vStr "inclusive" →
      addFilter compile st (.config c) = (.returned false [.errorEvent], st)) ∧
    (∀ nm fs earg, mapHas st.exclusiveTraceFilters nm = true →
      addFilter compile st (.config ⟨.vStr "exclusive", .vStr nm, .vStr fs, earg⟩) =
        (.returned false [.warnEvent], st)) ∧
    (∀ nm fs earg, mapHas st.inclusiveTraceFilters nm = true →
      addFilter compile st (.config ⟨.vStr "inclusive", .vStr nm, .vStr fs, earg⟩) =
        (.returned false [.warnEvent], st)) := by
  refine ⟨rfl, ?_, ?_, ?_, ?_, ?_⟩
  · rintro ⟨ty, nmv, fsv, env⟩ hn
    cases nmv with
    | vStr s => exact absurd rfl (hn s)
    | vBool b => rfl
    | vNum n => rfl
    | vUndefined => rfl
    | vNull => rfl
  · rintro ⟨ty, nmv, fsv, env⟩ ⟨s1, rfl⟩ hf
    cases fsv with
    | vStr s => exact absurd rfl (hf s)
    | vBool b => rfl
    | vNum n => rfl
    | vUndefined => rfl
    | vNull => rfl
  · rintro ⟨ty, nmv, fsv, env⟩ ⟨s1, rfl⟩ ⟨s2, rfl⟩ h1 h2
    have hcond : (ty != JSVal.vStr "exclusive" && ty != JSVal.vStr "inclusive") = true := by
      simp only [Bool.and_eq_true, bne_iff_ne]
      exact ⟨h1, h2⟩
    simp [addFilter, hcond]
  · intro nm fs earg h
    simp [addFilter, h]
  · intro nm fs earg h
    simp [addFilter, h]

/-- Witness for C6: concrete failing calls on a registry holding one
exclusive filter named `fx` — a non-object config throws, an invalid type
value is a logged error returning `false`, and a duplicate name is a logged
warning returning `false`, each leaving the state untouched. -/
theorem c6_witness :
    addFilter constCompile oneExclusiveState .nonObject =
      (.thrown "filterConfig is not an object.", oneExclusiveState) ∧
    addFilter constCompile oneExclusiveState
      (.config ⟨.vStr "banana", .vStr "n", .vStr "f", .vUndefined⟩) =
        (.returned false [.errorEvent], oneExclusiveState) ∧
    addFilter constCompile oneExclusiveState
      (.config ⟨.vStr "exclusive", .vStr "fx", .vStr "f", .vUndefined⟩) =
        (.returned false [.warnEvent], oneExclusiveState) := by
  refine ⟨(c6_addFilter_failures constCompile oneExclusiveState).1, ?_, ?_⟩
  · exact (c6_addFilter_failures constCompile oneExclusiveState).2.2.2.1 _
      ⟨"n", rfl⟩ ⟨"f", rfl⟩ (by decide) (by decide)
  · exact (c6_addFilter_failures constCompile oneExclusiveState).2.2.2.2.1 "fx" "f"
      .vUndefined (by decide)

/-- C8: a successful `addFilter` followed by `getFilterData` with the same
type and name returns the snapshot whose `filterString`, `name` and `type`
equal the values passed to `addFilter` and whose `enabled` is the boolean
override when one was supplied and `true` otherwise. -/
theorem c8_roundtrip (compile : String → String → Nat → Bool) (st : LoggerState)
    (ty nm fs : String) (earg : JSVal)
    (hty : ty = "exclusive" ∨ ty = "inclusive")
    (hhas : mapHas (if ty == "exclusive" then st.exclusiveTraceFilters
      else st.inclusiveTraceFilters) nm = false) :
    (addFilter compile st (.config ⟨.vStr ty, .vStr nm, .vStr fs, earg⟩)).1 =
      .returned true [] ∧
    getFilterData
      (addFilter compile st (.config ⟨.vStr ty, .vStr nm, .vStr fs, earg⟩)).2 ty nm =
      .ok (some ⟨effectiveEnabled earg, fs, nm, ty⟩) := by
  rcases hty with rfl | rfl
  · have hh : mapHas st.exclusiveTraceFilters nm = false := by simpa using hhas
    constructor
    · cases earg <;> simp [addFilter, hh]
    · cases earg <;>
        simp [addFilter, getFilterData, hh, effectiveEnabled,
          mapSet_of_not_has _ _ _ hh, mapGet_append_self _ _ _ hh]
  · have hh : mapHas st.inclusiveTraceFilters nm = false := by simpa using hhas
    constructor
    · cases earg <;> simp [addFilter, hh]
    · cases earg <;>
        simp [addFilter, getFilterData, hh, effectiveEnabled,
          mapSet_of_not_has _ _ _ hh, mapGet_append_self _ _ _ hh]

/-- Witness for C8: adding an exclusive filter named `n` with pattern `p` and
an enabled override of `false` to the empty registry succeeds, and querying it
back returns exactly that data. -/
theorem c8_witness :
    (addFilter constCompile emptyState
      (.config ⟨.vStr "exclusive", .vStr "n", .vStr "p", .vBool false⟩)).1 =
        .returned true [] ∧
    getFilterData (addFilter constCompile emptyState
      (.config ⟨.vStr "exclusive", .vStr "n", .vStr "p", .vBool false⟩)).2
      "exclusive" "n" = .ok (some ⟨false, "p", "n", "exclusive"⟩) :=
  c8_roundtrip constCompile emptyState "exclusive" "n" "p" (.vBool false)
    (Or.inl rfl) (by decide)

/-- C10: `getAllFilterData` throws a `TypeError` whenever its argument is
neither a boolean nor undefined — with the thrown result independent of the
registry state — and for a boolean or undefined argument it never throws,
returning the snapshot sequence (restricted, for a boolean argument, to
filters of that enabled state). -/
theorem c10_getAllFilterData_arg_check (st : LoggerState) (v : JSVal) :
    ((∀ b, v ≠ .vBool b) → v ≠ .vUndefined →
      getAllFilterData st v = .error "enabled is not a boolean or undefined." ∧
      ∀ st2 : LoggerState, getAllFilterData st2 v = getAllFilterData st v) ∧
    (∀ b : Bool, ∃ l, getAllFilterData st (.vBool b) = .ok l ∧
      ∀ d ∈ l, d.enabled = b) ∧
    (∃ l, getAllFilterData st .vUndefined = .ok l) := by
  refine ⟨?_, ?_, ⟨_, rfl⟩⟩
  · intro hb hu
    cases v with
    | vStr s => exact ⟨rfl, fun st2 => rfl⟩
    | vNum n => exact ⟨rfl, fun st2 => rfl⟩
    | vNull => exact ⟨rfl, fun st2 => rfl⟩
    | vBool b => exact absurd rfl (hb b)
    | vUndefined => exact absurd rfl hu
  · intro b
    refine ⟨_, rfl, ?_⟩
    intro d hd
    simp only [List.mem_append, List.mem_filterMap] at hd
    rcases hd with ⟨f, hf, heq⟩ | ⟨f, hf, heq⟩ <;>
    · by_cases hc : (JSVal.vBool f.enabled == JSVal.vBool b) = true
      · have hfb : f.enabled = b := by
          have h := eq_of_beq hc
          injection h
        rw [if_pos (by simp [hc])] at heq
        cases heq
        exact hfb
      · rw [if_neg (by simp [hc])] at heq
        cases heq

/-- Witness for C10: a string argument makes `getAllFilterData` throw on the
concrete one-filter registry, and a boolean argument returns a snapshot list
all of whose entries are enabled. -/
theorem c10_witness :
    getAllFilterData oneExclusiveState (.vStr "zzz") =
      .error "enabled is not a boolean or undefined." ∧
    ∃ l, getAllFilterData oneExclusiveState (.vBool true) = .ok l ∧
      ∀ d ∈ l, d.enabled = true := by
  constructor
  · exact ((c10_getAllFilterData_arg_check oneExclusiveState (.vStr "zzz")).1
      (by intro b h; cases h) (by intro h; cases h)).1
  · exact (c10_getAllFilterData_arg_check oneExclusiveState (.vStr "zzz")).2.1 true

/-- When the call-site scan finds no match, the loop counter runs past every
line: it ends at the start counter plus the number of scanned lines. -/
theorem findCallSite_none_snd (st : LoggerState) (lines : List String) (cntr : Nat)
    (h : (findCallSite st lines cntr).1 = none) :
    (findCallSite st lines cntr).2 = cntr + lines.length := by
  induction lines generalizing cntr with
  | nil => simp [findCallSite]
  | cons l rest ih =>
    rw [findCallSite] at h ⊢
    by_cases hf : lineFiltered st l = true
    · rw [if_pos hf] at h ⊢
      rw [ih (cntr + 1) h]
      simp [Nat.add_comm, Nat.add_assoc, Nat.add_left_comm]
    · rw [if_neg hf] at h ⊢
      cases hm : matchCallSite l with
      | some tok => rw [hm] at h; simp at h
      | none =>
        rw [hm] at h
        show (findCallSite st rest (cntr + 1)).2 = cntr + (l :: rest).length
        rw [ih (cntr + 1) h]
        simp only [List.length_cons]
        omega

/-- When the call-site scan finds a match, the final counter points at the
matching line: that line is not suppressed, it yields the returned token, and
it sits at offset `snd - cntr` of the scanned lines. -/
theorem findCallSite_some_spec (st : LoggerState) (lines : List String) (cntr : Nat)
    (tok : String) (i : Nat) (h : findCallSite st lines cntr = (some tok, i)) :
    ∃ j l rest, i = cntr + j ∧ lines.drop j = l :: rest ∧
      lineFiltered st l = false ∧ matchCallSite l = some tok := by
  induction lines generalizing cntr with
  | nil => rw [findCallSite] at h; cases h
  | cons l rest ih =>
    rw [findCallSite] at h
    by_cases hf : lineFiltered st l = true
    · rw [if_pos hf] at h
      obtain ⟨j, l2, rest2, hij, hdrop, hnf, hm⟩ := ih (cntr + 1) h
      exact ⟨j + 1, l2, rest2, by omega, by simpa using hdrop, hnf, hm⟩
    · rw [if_neg hf] at h
      cases hm : matchCallSite l with
      | some tok2 =>
        rw [hm] at h
        cases h
        exact ⟨0, l, rest, by omega, rfl, by simpa using hf, hm⟩
      | none =>
        rw [hm] at h
        obtain ⟨j, l2, rest2, hij, hdrop, hnf, hm2⟩ := ih (cntr + 1) h
        exact ⟨j + 1, l2, rest2, by omega, by simpa using hdrop, hnf, hm2⟩

/-- When every line is suppressed or lacks a call-site token, the call-site
scan finds nothing. -/
theorem findCallSite_none_of_all (st : LoggerState) (lines : List String) (cntr : Nat)
    (h : ∀ l ∈ lines, lineFiltered st l = true ∨ matchCallSite l = none) :
    (findCallSite st lines cntr).1 = none := by
  induction lines generalizing cntr with
  | nil => rfl
  | cons l rest ih =>
    rw [findCallSite]
    rcases h l (List.mem_cons_self l rest) with hf | hm
    · rw [if_pos hf]
      exact ih (cntr + 1) (fun x hx => h x (List.mem_cons_of_mem l hx))
    · by_cases hf : lineFiltered st l = true
      · rw [if_pos hf]
        exact ih (cntr + 1) (fun x hx => h x (List.mem_cons_of_mem l hx))
      · rw [if_neg hf, hm]
        exact ih (cntr + 1) (fun x hx => h x (List.mem_cons_of_mem l hx))

/-- C3 counterexample: with an empty registry, the stack text
`"a.js:1:2\nplain"` makes the first line the call site, and the full-trace
pass appends that very line as the first trace entry — the call-site line is
re-added, so the trace pass does not scan only the lines strictly after it. -/
theorem c3_counterexample :
    getTraceInfo emptyState (some "a.js:1:2\nplain") true =
      ⟨"a.js:1:2", ["a.js:1:2", "plain"]⟩ ∧
    "a.js:1:2" ∈ (getTraceInfo emptyState (some "a.js:1:2\nplain") true).trace := by
  constructor
  · decide
  · decide

/-- C3 amended: the full-trace pass scans the lines from the call-site line
onward, including the call-site line itself: whenever the call-site scan
finds its match at index `i`, the trace equals the non-suppressed lines from
index `i` on, and its head is the (non-suppressed) call-site line that was
consumed for `info`. -/
theorem c3_fulltrace_from_callsite (st : LoggerState) (s : String) (tok : String)
    (i : Nat) (h : findCallSite st (splitLines s) 0 = (some tok, i)) :
    ∃ l rest, (splitLines s).drop i = l :: rest ∧
      lineFiltered st l = false ∧ matchCallSite l = some tok ∧
      (getTraceInfo st (some s) true).trace =
        l :: rest.filter (fun x => !lineFiltered st x) := by
  obtain ⟨j, l, rest, hij, hdrop, hnf, hm⟩ := findCallSite_some_spec st (splitLines s) 0 tok i h
  have hji : i = j := by omega
  subst hji
  refine ⟨l, rest, hdrop, hnf, hm, ?_⟩
  simp only [getTraceInfo, h, hdrop, List.filter_cons, hnf]
  simp [hnf]

/-- Witness for the amended C3: on the stack `"a.js:1:2\nplain"` with the
empty registry the call-site scan matches at index 0 and the trace starts
with the call-site line itself. -/
theorem c3_amended_witness :
    findCallSite emptyState (splitLines "a.js:1:2\nplain") 0 = (some "a.js:1:2", 0) ∧
    ∃ l rest, (splitLines "a.js:1:2\nplain").drop 0 = l :: rest ∧
      lineFiltered emptyState l = false ∧ matchCallSite l = some "a.js:1:2" ∧
      (getTraceInfo emptyState (some "a.js:1:2\nplain") true).trace =
        l :: rest.filter (fun x => !lineFiltered emptyState x) :=
  ⟨by decide, c3_fulltrace_from_callsite emptyState "a.js:1:2\nplain" "a.js:1:2" 0 (by decide)⟩

/-- C4 counterexample: with an empty registry the single stack line `"hello"`
is not suppressed and yields no call-site token, yet the returned trace of a
full-trace call is empty — the trace pass does not rescan from the start, so
the non-suppressed line never appears. -/
theorem c4_counterexample :
    lineFiltered emptyState "hello" = false ∧
    getTraceInfo emptyState (some "hello") true = ⟨"no stack trace", []⟩ := by
  constructor
  · decide
  · decide

/-- C4 amended: when the call-site scan finds no match, its counter rests at
the total number of lines, so the full-trace pass scans nothing and the
returned trace is empty (rather than rescanning from the start). -/
theorem c4_no_callsite_empty_trace (st : LoggerState) (s : String) (i : Nat)
    (h : findCallSite st (splitLines s) 0 = (none, i)) :
    i = (splitLines s).length ∧
    getTraceInfo st (some s) true = ⟨"no stack trace", []⟩ := by
  have h1 : (findCallSite st (splitLines s) 0).1 = none := by rw [h]
  have h2 := findCallSite_none_snd st (splitLines s) 0 h1
  rw [h] at h2
  simp only at h2
  constructor
  · omega
  · simp only [getTraceInfo, h]
    rw [show i = (splitLines s).length from by omega]
    simp

/-- Witness for the amended C4: the one-line stack `"hello"` with the empty
registry exhausts the call-site scan at counter 1 and produces the sentinel
info with an empty trace. -/
theorem c4_amended_witness :
    findCallSite emptyState (splitLines "hello") 0 = (none, 1) ∧
    1 = (splitLines "hello").length ∧
    getTraceInfo emptyState (some "hello") true = ⟨"no stack trace", []⟩ :=
  ⟨by decide, c4_no_callsite_empty_trace emptyState "hello" 1 (by decide)⟩

/-- C7: a non-string stack yields the sentinel info and an empty trace, and a
present stack text all of whose lines are either suppressed or free of any
call-site token leaves `info` at the sentinel as well. -/
theorem c7_sentinel (st : LoggerState) (isFullTrace : Bool) (s : String) :
    getTraceInfo st none isFullTrace = ⟨"no stack trace", []⟩ ∧
    ((∀ l ∈ splitLines s, lineFiltered st l = true ∨ matchCallSite l = none) →
      (getTraceInfo st (some s) isFullTrace).info = "no stack trace") := by
  constructor
  · rfl
  · intro h
    have h1 := findCallSite_none_of_all st (splitLines s) 0 h
    cases hr : findCallSite st (splitLines s) 0 with
    | mk fst snd =>
      rw [hr] at h1
      simp only at h1
      subst h1
      simp [getTraceInfo, hr]

/-- Witness for C7: the empty registry and the token-free one-line stack
`"hello x"` leave `info` at the sentinel, and a missing stack gives the
sentinel with an empty trace. -/
theorem c7_witness :
    getTraceInfo emptyState none true = ⟨"no stack trace", []⟩ ∧
    (getTraceInfo emptyState (some "hello x") true).info = "no stack trace" :=
  ⟨(c7_sentinel emptyState true "hello x").1,
    (c7_sentinel emptyState true "hello x").2 (by decide)⟩

/-- Every match produced by one attempt of the call-site pattern consists of
zero or more filename characters, a colon, one or more digits, a colon, and
one or more digits. -/
theorem matchCallSiteAt_shape (cs m : List Char) (h : matchCallSiteAt cs = some m) :
    ∃ f d1 d2 : List Char, m = f ++ ':' :: (d1 ++ ':' :: d2) ∧
      (∀ c ∈ f, isFileChar c = true) ∧
      d1 ≠ [] ∧ (∀ c ∈ d1, c.isDigit = true) ∧
      d2 ≠ [] ∧ (∀ c ∈ d2, c.isDigit = true) := by
  unfold matchCallSiteAt at h
  split at h
  · split at h
    · cases h
    · rename_i rest1 heq1 hd1
      split at h
      · split at h
        · cases h
        · rename_i rest2 heq2 hd2
          injection h with hm
          refine ⟨cs.takeWhile isFileChar, rest1.takeWhile Char.isDigit,
            rest2.takeWhile Char.isDigit, hm.symm,
            fun c hc => List.mem_takeWhile_imp hc, ?_,
            fun c hc => List.mem_takeWhile_imp hc, ?_,
            fun c hc => List.mem_takeWhile_imp hc⟩
          · intro hnil
            rw [hnil] at hd1
            exact hd1 rfl
          · intro hnil
            rw [hnil] at hd2
            exact hd2 rfl
      · cases h
  · cases h

/-- The leftmost-position scan only returns matches of an attempt, so every
scan result has the call-site token shape. -/
theorem scanCallSite_shape (cs m : List Char) (h : scanCallSite cs = some m) :
    ∃ f d1 d2 : List Char, m = f ++ ':' :: (d1 ++ ':' :: d2) ∧
      (∀ c ∈ f, isFileChar c = true) ∧
      d1 ≠ [] ∧ (∀ c ∈ d1, c.isDigit = true) ∧
      d2 ≠ [] ∧ (∀ c ∈ d2, c.isDigit = true) := by
  induction cs with
  | nil => cases h
  | cons c rest ih =>
    rw [scanCallSite] at h
    cases hm : matchCallSiteAt (c :: rest) with
    | some m2 =>
      rw [hm] at h
      injection h with h2
      subst h2
      exact matchCallSiteAt_shape _ _ hm
    | none =>
      rw [hm] at h
      exact ih h

/-- C5 counterexample: the line `":12:34"`, whose only colon-digits-colon-
digits token has zero filename characters before the first colon, does yield
a call-site match — the pattern uses a Kleene star, not plus — so the scan
sets `info` to `":12:34"` instead of proceeding past the line. -/
theorem c5_counterexample :
    matchCallSite ":12:34" = some ":12:34" ∧
    (getTraceInfo emptyState (some ":12:34") true).info = ":12:34" := by
  constructor
  · decide
  · decide

/-- C5 amended: a non-suppressed line sets `info` only if it contains a token
consisting of zero or more filename characters, a colon, one or more digits,
a colon, and one or more digits; in particular a token with an empty filename
part, such as `":12:34"`, is accepted. -/
theorem c5_callsite_token_shape (st : LoggerState) (lines : List String)
    (cntr : Nat) (tok : String) (i : Nat)
    (h : findCallSite st lines cntr = (some tok, i)) :
    ∃ f d1 d2 : List Char, tok.data = f ++ ':' :: (d1 ++ ':' :: d2) ∧
      (∀ c ∈ f, isFileChar c = true) ∧
      d1 ≠ [] ∧ (∀ c ∈ d1, c.isDigit = true) ∧
      d2 ≠ [] ∧ (∀ c ∈ d2, c.isDigit = true) := by
  obtain ⟨j, l, rest, hij, hdrop, hnf, hm⟩ :=
    findCallSite_some_spec st lines cntr tok i h
  rw [matchCallSite] at hm
  cases hs : scanCallSite l.data with
  | none => rw [hs] at hm; cases hm
  | some m =>
    rw [hs] at hm
    injection hm with hm2
    have hshape := scanCallSite_shape l.data m hs
    rw [← hm2]
    exact hshape

/-- Witness for the amended C5: the call-site scan on the single line
`":12:34"` returns that token, which decomposes into an empty filename part,
digits `12` and digits `34`. -/
theorem c5_amended_witness :
    findCallSite emptyState [":12:34"] 0 = (some ":12:34", 0) ∧
    ∃ f d1 d2 : List Char,
      (":12:34" : String).data = f ++ ':' :: (d1 ++ ':' :: d2) ∧
      (∀ c ∈ f, isFileChar c = true) ∧
      d1 ≠ [] ∧ (∀ c ∈ d1, c.isDigit = true) ∧
      d2 ≠ [] ∧ (∀ c ∈ d2, c.isDigit = true) :=
  ⟨by decide,
    c5_callsite_token_shape emptyState [":12:34"] 0 ":12:34" 0 (by decide)⟩
